import Mathlib

/-!
# Verification of `kernel/pgo/fs.c` (clang PGO profile serializer)

Shallow embedding of the two-phase value-profile serializer: the size pass
`__prf_get_value_size`, the write pass `prf_serialize_value`, the blob
assembler `prf_serialize`/`prf_buffer_size`, the header filler
`prf_fill_header`, the open path `prf_open` and the reset path
`prf_reset_write`.

Machine integers are modelled as `Nat` with explicit `% 2^w` where the C code
truncates (the `(u8)count` store, `u32`/`u64` stores into the output buffer).
The output buffer is modelled as a write log (most recent write first) plus a
cursor; a freshly allocated buffer has an empty log and reading an unwritten
position yields 0, which models the zero fill of `vzalloc`.

Helpers and constants that live in `kernel/pgo/pgo.h` (not part of the
sources at hand) are modelled from the spec and marked as such in their doc
comments.
-/

set_option maxRecDepth 100000

/-- Constant `U8_MAX` from the kernel headers. -/
def U8_MAX : Nat := 255

/-- Little-endian byte decomposition of a `u32` store (4 bytes). -/
def u32Bytes (v : Nat) : List Nat :=
  [v % 256, v / 256 % 256, v / 256 ^ 2 % 256, v / 256 ^ 3 % 256]

/-- Little-endian byte decomposition of a `u64` store (8 bytes). -/
def u64Bytes (v : Nat) : List Nat :=
  [v % 256, v / 256 % 256, v / 256 ^ 2 % 256, v / 256 ^ 3 % 256,
   v / 256 ^ 4 % 256, v / 256 ^ 5 % 256, v / 256 ^ 6 % 256, v / 256 ^ 7 % 256]

/-- The output buffer: a log of `(absolute position, byte)` writes, most
recent first, together with the cursor `pos`.  The underlying allocation is
zero-filled (`vzalloc`), so a position never written reads as 0. -/
structure Buf where
  log : List (Nat × Nat)
  pos : Nat
  deriving DecidableEq, Repr

/-- A fresh zero-filled buffer with the cursor at 0. -/
def Buf.init : Buf := ⟨[], 0⟩

/-- The log segment of writing the byte string `bs` at positions
`pos, pos + 1, ...`, most recent write first. -/
def wrSeg (pos : Nat) : List Nat → List (Nat × Nat)
  | [] => []
  | v :: vs => wrSeg (pos + 1) vs ++ [(pos, v)]

/-- Write a byte string at the cursor, byte by byte, advancing the cursor
past it (`prf_copy_buffer`, and field stores through a struct pointer at the
cursor followed by the matching cursor advance). -/
def wrBytes (b : Buf) (bs : List Nat) : Buf :=
  ⟨wrSeg b.pos bs ++ b.log, b.pos + bs.length⟩

/-- Advance the cursor without writing (reserving zero-filled space). -/
def wrSkip (b : Buf) (k : Nat) : Buf := ⟨b.log, b.pos + k⟩

/-- Write one byte at an absolute position, not moving the cursor
(the `counts[n] = (u8)count;` store through the saved `counts` pointer). -/
def wrAt (b : Buf) (i v : Nat) : Buf := ⟨(i, v) :: b.log, b.pos⟩

/-- The byte visible at position `i`: the most recent write there, else the
zero fill. -/
def contents (b : Buf) (i : Nat) : Nat :=
  match b.log.find? (fun e => e.1 == i) with
  | some e => e.2
  | none => 0

/-- Read back a little-endian `u64` starting at position `i`. -/
def readU64 (b : Buf) (i : Nat) : Nat :=
  contents b i + contents b (i+1) * 256 + contents b (i+2) * 256 ^ 2 +
  contents b (i+3) * 256 ^ 3 + contents b (i+4) * 256 ^ 4 +
  contents b (i+5) * 256 ^ 5 + contents b (i+6) * 256 ^ 6 +
  contents b (i+7) * 256 ^ 7

/-- One `struct llvm_prf_value_node`: the sampled value and its frequency.
The `next` pointer is absorbed into the `List` structure of a sample list. -/
structure LlvmPrfValueNode where
  value : Nat
  count : Nat
  deriving DecidableEq, Repr

/-- The value of `sizeof(struct llvm_prf_value_node_data)`: two `u64`
fields. -/
def nodeDataSize : Nat := 16

/-- The bytes `prf_copy_buffer(buffer, site, sizeof(llvm_prf_value_node_data))`
copies: the `value` and `count` fields of the node. -/
def nodeBytes (nd : LlvmPrfValueNode) : List Nat :=
  u64Bytes nd.value ++ u64Bytes nd.count

/-- The value of `sizeof(struct llvm_prf_value_data)`:
`u32 total_size; u32 num_value_kinds`. -/
def valueDataSize : Nat := 8

/-- One `struct llvm_prf_data` metadata record as the serializer reads it:
the per-kind site counts (`num_value_sites`, the list index is the kind, the
list length is `ARRAY_SIZE(p->num_value_sites)`), and the `values` pointer,
`none` when null, otherwise the flat per-site array of sample lists indexed
by `s + n`. -/
structure LlvmPrfData where
  num_value_sites : List Nat
  values : Option (Nat → List LlvmPrfValueNode)

/-- Modelled from the spec: `prf_get_value_record_header_size()` from
`pgo.h` — the bytes of a value record before the site count array
(`u32 kind; u32 num_value_sites`). -/
def prf_get_value_record_header_size : Nat := 8

/-- Modelled from the spec: `prf_get_value_record_site_count_size(sites)`
from `pgo.h` — the byte-sized count-per-site array, one byte per site,
rounded up to 8-byte alignment. -/
def prf_get_value_record_site_count_size (sites : Nat) : Nat :=
  8 * ((sites + 7) / 8)

/-- Modelled from the spec: `prf_get_value_record_size(sites)` from `pgo.h`
— record header plus site count array. -/
def prf_get_value_record_size (sites : Nat) : Nat :=
  prf_get_value_record_header_size + prf_get_value_record_site_count_size sites

/-- The list walk `while (site && ++count <= U8_MAX) site = site->next;`
starting from `count = c`: the value of `count` when the loop exits. -/
def countLoop : List LlvmPrfValueNode → Nat → Nat
  | [], c => c
  | _ :: rest, c => if c + 1 ≤ U8_MAX then countLoop rest (c + 1) else c + 1

/-- The inner site loop of the size pass for one kind: the accumulated
`count * sizeof(llvm_prf_value_node_data)` over sites `s + 0 .. s + n - 1`. -/
def sumSites (f : Nat → List LlvmPrfValueNode) (s : Nat) : Nat → Nat
  | 0 => 0
  | n + 1 => sumSites f s n + countLoop (f (s + n)) 0 * nodeDataSize

/-- The kind loop of `__prf_get_value_size`: accumulated `(size, kinds)` over
the remaining kinds, with `s` the flat site index so far. -/
def sizerLoop (nodes : Option (Nat → List LlvmPrfValueNode)) :
    List Nat → Nat → Nat × Nat
  | [], _ => (0, 0)
  | sites :: rest, s =>
    if sites = 0 then sizerLoop nodes rest s
    else
      match nodes with
      | none =>
        let r := sizerLoop nodes rest s
        (prf_get_value_record_size sites + r.1, r.2 + 1)
      | some f =>
        let r := sizerLoop nodes rest (s + sites)
        (prf_get_value_record_size sites + sumSites f s sites + r.1, r.2 + 1)

/-- Function `__prf_get_value_size(p, &kinds)`: returns `(size, kinds)` —
the flattened byte size of the value data of `p` (0 when nothing is emitted)
and the number of value kinds with a nonzero site count. -/
def __prf_get_value_size (p : LlvmPrfData) : Nat × Nat :=
  let r := sizerLoop p.values p.num_value_sites 0
  (if r.1 ≠ 0 then r.1 + valueDataSize else r.1, r.2)

/-- The node copy loop of the write pass
`while (site && ++count <= U8_MAX) { prf_copy_buffer(...); site = site->next; }`
starting from `count = c`: the buffer after the copies and the exit value of
`count`. -/
def copyLoop (b : Buf) : List LlvmPrfValueNode → Nat → Buf × Nat
  | [], c => (b, c)
  | node :: rest, c =>
    if c + 1 ≤ U8_MAX then copyLoop (wrBytes b (nodeBytes node)) rest (c + 1)
    else (b, c + 1)

/-- The site loop of the write pass for one kind: for sites `n, n+1, ...`
(`rem` remaining), copy the capped node data of each site and store
`counts[n] = (u8)count` at `countsBase + n`. -/
def siteLoop (f : Nat → List LlvmPrfValueNode) (b : Buf)
    (countsBase s n : Nat) : Nat → Buf
  | 0 => b
  | rem + 1 =>
    let r := copyLoop b (f (s + n)) 0
    siteLoop f (wrAt r.1 (countsBase + n) (r.2 % 256)) countsBase s (n + 1) rem

/-- The kind loop of `prf_serialize_value`: `kind` is the current kind index,
`s` the flat site index so far. -/
def writerLoop (nodes : Option (Nat → List LlvmPrfValueNode)) :
    Buf → List Nat → Nat → Nat → Buf
  | b, [], _, _ => b
  | b, sites :: rest, kind, s =>
    if sites = 0 then writerLoop nodes b rest (kind + 1) s
    else
      let b := wrBytes b (u32Bytes kind ++ u32Bytes sites)
      let countsBase := b.pos
      let b := wrSkip b (prf_get_value_record_site_count_size sites)
      match nodes with
      | none => writerLoop nodes b rest (kind + 1) s
      | some f =>
        let b := siteLoop f b countsBase s 0 sites
        writerLoop nodes b rest (kind + 1) (s + sites)

/-- Function `prf_serialize_value(p, &buffer)`: write the flattened value record of `p` at
the cursor, or nothing when no value kind is present. -/
def prf_serialize_value (p : LlvmPrfData) (b : Buf) : Buf :=
  let hdr := __prf_get_value_size p
  if hdr.2 = 0 then b
  else
    let b := wrBytes b (u32Bytes hdr.1 ++ u32Bytes hdr.2)
    writerLoop p.values b p.num_value_sites 0 0

/-- Modelled from the spec: the constants of `pgo.h`. `LLVM_PRF_MAGIC` is
the magic constant of the raw-profile convention, `LLVM_PRF_VERSION` the base
version, `LLVM_PRF_VARIANT_MASK_IR` the IR-instrumentation variant flag, and
`LLVM_PRF_IPVK_LAST` the highest value-kind tag. -/
def LLVM_PRF_MAGIC : Nat := 0xff6c70726f667281

/-- Modelled from the spec: the base version constant from `pgo.h`. -/
def LLVM_PRF_VERSION : Nat := 5

/-- Modelled from the spec: the IR-variant flag from `pgo.h` (a high bit
OR-ed into the version field). -/
def LLVM_PRF_VARIANT_MASK_IR : Nat := 2 ^ 56

/-- Modelled from the spec: `LLVM_PRF_IPVK_LAST` from `pgo.h`, the highest
tag of the value-kind enumeration. -/
def LLVM_PRF_IPVK_LAST : Nat := 1

/-- The value of `sizeof(struct llvm_prf_header)`: ten `u64` fields. -/
def llvm_prf_header_size : Nat := 80

/-- The live linker-defined state the serializer reads: the metadata records
of the `__llvm_prf_data` region (structured view), the raw bytes of the
three regions (copied verbatim), and the start addresses of the counters and
names regions (stored into the header as deltas). -/
structure PrfGlobals where
  records : List LlvmPrfData
  dataBytes : List Nat
  cntsBytes : List Nat
  namesBytes : List Nat
  cntsStartAddr : Nat
  namesStartAddr : Nat

/-- Modelled from the spec: `sizeof(struct llvm_prf_data)`, the element size
of the records region. -/
def llvm_prf_data_size : Nat := 48

/-- Modelled from the spec: `prf_data_size()` from `pgo.h` — the byte length
of the records region. -/
def prf_data_size (g : PrfGlobals) : Nat := g.dataBytes.length

/-- Modelled from the spec: `prf_data_count()` from `pgo.h` — the element
count of the records region. -/
def prf_data_count (g : PrfGlobals) : Nat := g.dataBytes.length / llvm_prf_data_size

/-- Modelled from the spec: `prf_cnts_size()` from `pgo.h` — the byte length
of the counters region. -/
def prf_cnts_size (g : PrfGlobals) : Nat := g.cntsBytes.length

/-- Modelled from the spec: `prf_cnts_count()` from `pgo.h` — the element
count of the counters region (`u64` counters). -/
def prf_cnts_count (g : PrfGlobals) : Nat := g.cntsBytes.length / 8

/-- Modelled from the spec: `prf_names_size()` from `pgo.h` — the byte
length of the names region. -/
def prf_names_size (g : PrfGlobals) : Nat := g.namesBytes.length

/-- Modelled from the spec: `prf_names_count()` from `pgo.h` — the element
count of the names region (bytes). -/
def prf_names_count (g : PrfGlobals) : Nat := g.namesBytes.length

/-- Modelled from the spec: `prf_get_padding(size)` from `pgo.h` — the zero
padding needed to round `size` up to an 8-byte boundary. -/
def prf_get_padding (size : Nat) : Nat := (8 - size % 8) % 8

/-- Function `prf_fill_header(&buffer)`: store the ten `u64` header fields
at the cursor and advance the cursor by `sizeof(struct llvm_prf_header)`. -/
def prf_fill_header (g : PrfGlobals) (b : Buf) : Buf :=
  wrBytes b
    (u64Bytes LLVM_PRF_MAGIC ++
     u64Bytes (Nat.lor LLVM_PRF_VARIANT_MASK_IR LLVM_PRF_VERSION) ++
     u64Bytes (prf_data_count g) ++
     u64Bytes 0 ++
     u64Bytes (prf_cnts_count g) ++
     u64Bytes 0 ++
     u64Bytes (prf_names_count g) ++
     u64Bytes g.cntsStartAddr ++
     u64Bytes g.namesStartAddr ++
     u64Bytes LLVM_PRF_IPVK_LAST)

/-- Function `prf_get_value_size()`: the flattened value-data size summed
over every metadata record (`__prf_get_value_size(p, NULL)`). -/
def prf_get_value_size (g : PrfGlobals) : Nat :=
  (g.records.map (fun p => (__prf_get_value_size p).1)).sum

/-- Function `prf_serialize_values(&buffer)`: write the flattened value
record of every metadata record, in record order. -/
def prf_serialize_values (g : PrfGlobals) (b : Buf) : Buf :=
  g.records.foldl (fun b p => prf_serialize_value p b) b

/-- Function `prf_buffer_size()`: the total allocation size of the blob. -/
def prf_buffer_size (g : PrfGlobals) : Nat :=
  llvm_prf_header_size +
    prf_data_size g +
    prf_cnts_size g +
    prf_names_size g +
    prf_get_padding (prf_names_size g) +
    prf_get_value_size g

/-- The contents of `struct prf_private_data`: the blob buffer (null before
a successful allocation) and its size. -/
structure PrfPrivateData where
  buffer : Option Buf
  size : Nat
  deriving DecidableEq, Repr

/-- Lock events of the serialize lock (`prf_serialize_lock` /
`prf_serialize_unlock` with the saved flags). -/
inductive LockEvent where
  | lock : Nat → LockEvent
  | unlock : Nat → LockEvent
  deriving DecidableEq, Repr

/-- The outcome of `prf_serialize`: the returned error code, the private
data it filled in, and the lock events it performed in order. -/
structure SerializeResult where
  err : Int
  p : PrfPrivateData
  trace : List LockEvent
  deriving Repr

/-- The body of a successful `prf_serialize`: fill the header, copy the
three regions, skip the alignment padding, then write the value records. -/
def prf_serialize_body (g : PrfGlobals) : Buf :=
  let b := Buf.init
  let b := prf_fill_header g b
  let b := wrBytes b g.dataBytes
  let b := wrBytes b g.cntsBytes
  let b := wrBytes b g.namesBytes
  let b := wrSkip b (prf_get_padding (prf_names_size g))
  prf_serialize_values g b

/-- Function `prf_serialize(p)`: take the serialize lock, store the computed
total size into `p->size`, attempt the `vzalloc` (its success is the
environment-supplied `allocOk`), and either fill the buffer or fail with
`-ENOMEM`; both paths release the lock with the saved flags. -/
def prf_serialize (g : PrfGlobals) (allocOk : Bool) (flags : Nat) :
    SerializeResult :=
  let size := prf_buffer_size g
  if allocOk then
    { err := 0, p := ⟨some (prf_serialize_body g), size⟩,
      trace := [LockEvent.lock flags, LockEvent.unlock flags] }
  else
    { err := -12, p := ⟨none, size⟩,
      trace := [LockEvent.lock flags, LockEvent.unlock flags] }

/-- Function `prf_open(inode, file)`: allocate the private data (`kzallocOk`
is the environment-supplied success of `kzalloc`), run `prf_serialize`, and
on error free the private data and fail; on success publish the private
data in `file->private_data`. Returns `(error code, file->private_data)`. -/
def prf_open (g : PrfGlobals) (kzallocOk vzallocOk : Bool) (flags : Nat) :
    Int × Option PrfPrivateData :=
  if !kzallocOk then (-12, none)
  else
    let r := prf_serialize g vzallocOk flags
    if r.err != 0 then (r.err, none)
    else (0, some r.p)

/-- Function `prf_reset_write(file, addr, len, pos)`: zero the counters
region with `memset` and report the full length as consumed. Returns the
new globals, the returned length, and the lock events performed (none: the
reset path never touches the serialize lock). -/
def prf_reset_write (g : PrfGlobals) (len : Nat) :
    PrfGlobals × Nat × List LockEvent :=
  ({ g with cntsBytes := List.replicate g.cntsBytes.length 0 }, len, [])

/-- Spec-side helper: the record-plus-count-array bytes summed over the
kinds with a nonzero site count (the spec formula
`record_header_bytes + site_count_array_bytes` per present kind). -/
def sumRecordSizes : List Nat → Nat
  | [] => 0
  | sites :: rest =>
    (if sites = 0 then 0 else prf_get_value_record_size sites) + sumRecordSizes rest

/-- Spec-side helper: the number of value kinds with a nonzero site count
(the spec value `kinds_present`). -/
def presentKinds : List Nat → Nat
  | [] => 0
  | sites :: rest => (if sites = 0 then 0 else 1) + presentKinds rest

/-- Spec-side helper: the `(start, length)` layout of the per-site count
arrays of the flattened value record, assuming the record body begins at
`pos` (immediately after the `llvm_prf_value_data` header). -/
def countArraySpans : List Nat → Nat → List (Nat × Nat)
  | [], _ => []
  | sites :: rest, pos =>
    if sites = 0 then countArraySpans rest pos
    else
      (pos + prf_get_value_record_header_size,
       prf_get_value_record_site_count_size sites) ::
        countArraySpans rest (pos + prf_get_value_record_size sites)

/-- A metadata record with one value kind, one site, and a 300-node sample
list — the failing input of the size/write agreement. -/
def pCap300 : LlvmPrfData := ⟨[1], some (fun _ => List.replicate 300 ⟨0, 0⟩)⟩

/-- A profile state holding `pCap300` as its only record and empty fixed
regions. -/
def gCap300 : PrfGlobals := ⟨[pCap300], [], [], [], 0, 0⟩

/-- A metadata record whose every kind has a zero site count. -/
def pAllZeroSites : LlvmPrfData := ⟨[0, 0], none⟩

/-- A metadata record with a null `values` pointer but a kind with two
sites. -/
def pNullValues : LlvmPrfData := ⟨[0, 2], none⟩

theorem contents_cons (l : List (Nat × Nat)) (p j v i : Nat) :
    contents ⟨(j, v) :: l, p⟩ i = if j = i then v else contents ⟨l, p⟩ i := by
  by_cases h : j = i <;> simp [contents, List.find?_cons, h]

theorem wrBytes_cons (b : Buf) (v : Nat) (vs : List Nat) :
    wrBytes b (v :: vs) = wrBytes ⟨(b.pos, v) :: b.log, b.pos + 1⟩ vs := by
  simp [wrBytes, wrSeg, List.append_assoc]
  omega

theorem wrBytes_pos (b : Buf) (bs : List Nat) :
    (wrBytes b bs).pos = b.pos + bs.length := rfl

theorem contents_wrBytes (bs : List Nat) : ∀ (b : Buf) (i : Nat),
    contents (wrBytes b bs) i =
      if b.pos ≤ i ∧ i < b.pos + bs.length then bs.getD (i - b.pos) 0
      else contents b i := by
  induction bs with
  | nil =>
    intro b i
    rw [if_neg (by simp)]
    rfl
  | cons v vs ih =>
    intro b i
    rw [wrBytes_cons, ih]
    by_cases h1 : b.pos + 1 ≤ i ∧ i < b.pos + 1 + vs.length
    · rw [if_pos h1, if_pos (by simp; omega)]
      have h3 : i - b.pos = (i - (b.pos + 1)) + 1 := by omega
      rw [h3, List.getD_cons_succ]
    · rw [if_neg h1, contents_cons]
      by_cases h2 : b.pos = i
      · rw [if_pos h2, if_pos (by simp; omega)]
        simp [← h2]
      · rw [if_neg h2, if_neg (by simp; omega)]
        rfl

theorem contents_wrBytes_in (b : Buf) (bs : List Nat) (j : Nat)
    (h : j < bs.length) :
    contents (wrBytes b bs) (b.pos + j) = bs.getD j 0 := by
  rw [contents_wrBytes, if_pos (by omega)]
  simp

theorem len_u64 (v : Nat) : (u64Bytes v).length = 8 := by simp [u64Bytes]

theorem contents_wrBytes_seg (b : Buf) (pre post : List Nat) (v j : Nat)
    (hj : j < 8) :
    contents (wrBytes b (pre ++ u64Bytes v ++ post)) (b.pos + (pre.length + j)) =
      (u64Bytes v).getD j 0 := by
  have h8 : (u64Bytes v).length = 8 := by simp [u64Bytes]
  rw [contents_wrBytes_in _ _ _ (by simp [u64Bytes]; omega)]
  rw [List.append_assoc, List.getD_append_right _ _ _ _ (by omega)]
  rw [Nat.add_sub_cancel_left]
  rw [List.getD_append _ _ _ _ (by omega)]

theorem readU64_wrBytes_seg (b : Buf) (pre post : List Nat) (v : Nat) :
    readU64 (wrBytes b (pre ++ u64Bytes v ++ post)) (b.pos + pre.length) =
      v % 2 ^ 64 := by
  have h0 := contents_wrBytes_seg b pre post v 0 (by omega)
  have h1 := contents_wrBytes_seg b pre post v 1 (by omega)
  have h2 := contents_wrBytes_seg b pre post v 2 (by omega)
  have h3 := contents_wrBytes_seg b pre post v 3 (by omega)
  have h4 := contents_wrBytes_seg b pre post v 4 (by omega)
  have h5 := contents_wrBytes_seg b pre post v 5 (by omega)
  have h6 := contents_wrBytes_seg b pre post v 6 (by omega)
  have h7 := contents_wrBytes_seg b pre post v 7 (by omega)
  rw [readU64]
  rw [show b.pos + pre.length + 1 = b.pos + (pre.length + 1) by omega,
      show b.pos + pre.length + 2 = b.pos + (pre.length + 2) by omega,
      show b.pos + pre.length + 3 = b.pos + (pre.length + 3) by omega,
      show b.pos + pre.length + 4 = b.pos + (pre.length + 4) by omega,
      show b.pos + pre.length + 5 = b.pos + (pre.length + 5) by omega,
      show b.pos + pre.length + 6 = b.pos + (pre.length + 6) by omega,
      show b.pos + pre.length + 7 = b.pos + (pre.length + 7) by omega]
  rw [show b.pos + pre.length = b.pos + (pre.length + 0) by omega]
  rw [h0, h1, h2, h3, h4, h5, h6, h7]
  simp only [u64Bytes, List.getD_cons_zero, List.getD_cons_succ]
  norm_num
  omega

theorem contents_wrSkip (b : Buf) (k i : Nat) :
    contents (wrSkip b k) i = contents b i := rfl

theorem contents_init (i : Nat) : contents Buf.init i = 0 := rfl

theorem record_size_ge (x : Nat) : 8 ≤ prf_get_value_record_size x := by
  unfold prf_get_value_record_size prf_get_value_record_header_size
    prf_get_value_record_site_count_size
  omega

theorem sizerLoop_zero (nodes : Option (Nat → List LlvmPrfValueNode)) :
    ∀ (l : List Nat) (s : Nat), (∀ x ∈ l, x = 0) → sizerLoop nodes l s = (0, 0) := by
  intro l
  induction l with
  | nil => intro s _; rfl
  | cons x rest ih =>
    intro s h
    have hx : x = 0 := h x (by simp)
    simp only [sizerLoop, hx, if_pos]
    exact ih s (fun y hy => h y (by simp [hy]))

theorem sizerLoop_none : ∀ (l : List Nat) (s : Nat),
    sizerLoop none l s = (sumRecordSizes l, presentKinds l) := by
  intro l
  induction l with
  | nil => intro s; rfl
  | cons x rest ih =>
    intro s
    by_cases hx : x = 0
    · simp [sizerLoop, hx, sumRecordSizes, presentKinds, ih]
    · simp [sizerLoop, hx, sumRecordSizes, presentKinds, ih s, Prod.ext_iff]
      omega

theorem sumRecordSizes_pos : ∀ l : List Nat, (∃ x ∈ l, x ≠ 0) →
    0 < sumRecordSizes l := by
  intro l
  induction l with
  | nil => simp
  | cons x rest ih =>
    intro h
    simp only [sumRecordSizes]
    rcases h with ⟨y, hy, hy0⟩
    rcases List.mem_cons.mp hy with h1 | h2
    · subst h1
      have := record_size_ge y
      rw [if_neg hy0]
      omega
    · have := ih ⟨y, h2, hy0⟩
      omega

theorem presentKinds_pos : ∀ l : List Nat, (∃ x ∈ l, x ≠ 0) →
    0 < presentKinds l := by
  intro l
  induction l with
  | nil => simp
  | cons x rest ih =>
    intro h
    simp only [presentKinds]
    rcases h with ⟨y, hy, hy0⟩
    rcases List.mem_cons.mp hy with h1 | h2
    · subst h1
      rw [if_neg hy0]
      omega
    · have := ih ⟨y, h2, hy0⟩
      omega

theorem countArraySpans_start_ge : ∀ (l : List Nat) (pos : Nat),
    ∀ sp ∈ countArraySpans l pos, pos + prf_get_value_record_header_size ≤ sp.1 := by
  intro l
  induction l with
  | nil => intro pos sp h; simp [countArraySpans] at h
  | cons x rest ih =>
    intro pos sp h
    by_cases hx : x = 0
    · rw [countArraySpans, if_pos hx] at h
      exact ih pos sp h
    · rw [countArraySpans, if_neg hx] at h
      rcases List.mem_cons.mp h with h1 | h2
      · subst h1; omega
      · have := ih (pos + prf_get_value_record_size x) sp h2
        have := record_size_ge x
        omega

theorem writerLoop_none_pos : ∀ (l : List Nat) (b : Buf) (k s : Nat),
    (writerLoop none b l k s).pos = b.pos + sumRecordSizes l := by
  intro l
  induction l with
  | nil => intro b k s; simp [writerLoop, sumRecordSizes]
  | cons x rest ih =>
    intro b k s
    by_cases hx : x = 0
    · simp [writerLoop, hx, sumRecordSizes, ih]
    · simp only [writerLoop, hx, if_neg, ite_false]
      rw [ih]
      simp [wrSkip, wrBytes, u32Bytes, sumRecordSizes, hx,
        prf_get_value_record_size, prf_get_value_record_header_size]
      omega

theorem writerLoop_none_low : ∀ (l : List Nat) (b : Buf) (k s i : Nat),
    i < b.pos → contents (writerLoop none b l k s) i = contents b i := by
  intro l
  induction l with
  | nil => intro b k s i _; rfl
  | cons x rest ih =>
    intro b k s i hi
    by_cases hx : x = 0
    · simp only [writerLoop, hx, if_pos, ite_true]
      exact ih b (k + 1) s i hi
    · simp only [writerLoop, hx, ite_false]
      rw [ih _ (k + 1) s i (by simp [wrSkip, wrBytes_pos]; omega)]
      rw [contents_wrSkip, contents_wrBytes, if_neg (by omega)]

theorem writerLoop_none_high : ∀ (l : List Nat) (b : Buf) (k s i : Nat),
    (writerLoop none b l k s).pos ≤ i →
    contents (writerLoop none b l k s) i = contents b i := by
  intro l
  induction l with
  | nil => intro b k s i _; rfl
  | cons x rest ih =>
    intro b k s i hi
    by_cases hx : x = 0
    · simp only [writerLoop, hx, if_pos, ite_true] at hi ⊢
      exact ih b (k + 1) s i hi
    · simp only [writerLoop, hx, ite_false] at hi ⊢
      rw [ih _ (k + 1) s i hi]
      have hpos : (writerLoop none (wrSkip (wrBytes b (u32Bytes k ++ u32Bytes x))
          (prf_get_value_record_site_count_size x)) rest (k + 1) s).pos =
          b.pos + ((u32Bytes k ++ u32Bytes x).length +
            prf_get_value_record_site_count_size x) + sumRecordSizes rest := by
        rw [writerLoop_none_pos]
        simp [wrSkip, wrBytes_pos]
        omega
      rw [contents_wrSkip, contents_wrBytes, if_neg (by rw [hpos] at hi; simp at hi ⊢; omega)]

theorem writerLoop_none_counts : ∀ (l : List Nat) (b : Buf) (k s : Nat),
    ∀ sp ∈ countArraySpans l b.pos, ∀ j < sp.2,
      contents (writerLoop none b l k s) (sp.1 + j) = contents b (sp.1 + j) := by
  intro l
  induction l with
  | nil => intro b k s sp h; simp [countArraySpans] at h
  | cons x rest ih =>
    intro b k s sp hsp j hj
    by_cases hx : x = 0
    · rw [countArraySpans, if_pos hx] at hsp
      simp only [writerLoop, hx, if_pos, ite_true]
      exact ih b (k + 1) s sp hsp j hj
    · rw [countArraySpans, if_neg hx] at hsp
      simp only [writerLoop, hx, ite_false]
      have hb2 : (wrSkip (wrBytes b (u32Bytes k ++ u32Bytes x))
          (prf_get_value_record_site_count_size x)).pos =
          b.pos + prf_get_value_record_size x := by
        simp [wrSkip, wrBytes_pos, u32Bytes, prf_get_value_record_size,
          prf_get_value_record_header_size]
        omega
      rcases List.mem_cons.mp hsp with h1 | h2
      · subst h1
        simp only at hj
        rw [writerLoop_none_low _ _ _ _ _ (by
          rw [hb2]
          unfold prf_get_value_record_size
          omega)]
        rw [contents_wrSkip, contents_wrBytes, if_neg (by
          simp [u32Bytes]
          unfold prf_get_value_record_header_size
          omega)]
      · have hstart := countArraySpans_start_ge rest
          (b.pos + prf_get_value_record_size x) sp (by rw [← hb2] at h2 ⊢; exact h2)
        rw [ih _ (k + 1) s sp (by rw [hb2]; exact h2) j hj]
        rw [contents_wrSkip, contents_wrBytes, if_neg (by
          simp [u32Bytes]
          have := record_size_ge x
          unfold prf_get_value_record_header_size at hstart
          omega)]

/-- C1: the claim that the size pass always equals the bytes the write pass
advances fails on the code: at a record with one site whose list holds 300
nodes, `__prf_get_value_size` counts `min(300, 256) = 256` node payloads
(4120 bytes in total) while `prf_serialize_value` advances the cursor past
only `min(300, 255) = 255` payloads (4104 bytes), because the size pass
increments `count` once more before the `<= U8_MAX` test fails. -/
theorem prf_C1_size_write_disagree_at_300 :
    Buf.init.pos = 0 ∧
    (__prf_get_value_size pCap300).1 = 4120 ∧
    (prf_serialize_value pCap300 Buf.init).pos = 4104 ∧
    (__prf_get_value_size pCap300).1 ≠ (prf_serialize_value pCap300 Buf.init).pos := by
  exact ⟨by decide, by decide, by decide, by decide⟩

/-- C2: at a site with a 300-node list the writer does emit exactly
`min(300, 255) = 255` node payloads (the cursor advances by the value-data
header, one record header, one 8-byte count array and 255 payloads), but the
count byte it records is `(u8)256 = 0`, not `min(300, 255) = 255`: the claim
about the recorded count byte fails on the code. -/
theorem prf_C2_cap_count_byte_at_300 :
    (prf_serialize_value pCap300 Buf.init).pos =
      valueDataSize + prf_get_value_record_header_size +
        prf_get_value_record_site_count_size 1 + 255 * nodeDataSize ∧
    contents (prf_serialize_value pCap300 Buf.init)
      (valueDataSize + prf_get_value_record_header_size) = 0 ∧
    (0 : Nat) ≠ 255 := by
  exact ⟨by decide, by decide, by decide⟩

/-- C3: the claim that the reset operation zeroes the counters while holding
the same mutual-exclusion guard as the serialize phase fails on the code:
`prf_reset_write` performs its `memset` with an empty lock-event trace — it
never acquires `prf_serialize_lock` — whereas `prf_serialize` brackets its
work in a lock/unlock pair. -/
theorem prf_C3_reset_takes_no_lock (g : PrfGlobals) (len flags : Nat) :
    (prf_reset_write g len).2.2 = [] ∧
    (prf_reset_write g len).2.1 = len ∧
    (prf_reset_write g len).1.cntsBytes = List.replicate (prf_cnts_size g) 0 ∧
    (prf_serialize g true flags).trace =
      [LockEvent.lock flags, LockEvent.unlock flags] := by
  exact ⟨rfl, rfl, rfl, rfl⟩

/-- C4: a metadata record whose every value kind has a zero site count makes
the sizer return `(0, 0)` and makes the writer return the buffer unchanged:
no header, no bytes, no cursor advance. -/
theorem prf_C4_skip_on_empty (p : LlvmPrfData) (b : Buf)
    (h : ∀ x ∈ p.num_value_sites, x = 0) :
    __prf_get_value_size p = (0, 0) ∧ prf_serialize_value p b = b := by
  have hs := sizerLoop_zero p.values p.num_value_sites 0 h
  have hv : __prf_get_value_size p = (0, 0) := by
    simp [__prf_get_value_size, hs]
  refine ⟨hv, ?_⟩
  simp [prf_serialize_value, hv]

/-- Witness for C4 at the concrete record `pAllZeroSites`. -/
theorem prf_C4_skip_on_empty_witness :
    __prf_get_value_size pAllZeroSites = (0, 0) ∧
    prf_serialize_value pAllZeroSites Buf.init = Buf.init :=
  prf_C4_skip_on_empty pAllZeroSites Buf.init (by decide)

/-- C6: the claim that the cursor always ends exactly at the allocation size
fails on the code: with one record holding a 300-node list the allocation
size `prf_buffer_size` is 4200 bytes (it includes 256 payloads for the long
site) while serialization advances the cursor to only 4184 bytes (255
payloads written). The allocation-size formula itself is as claimed. -/
theorem prf_C6_total_size_at_300 :
    prf_buffer_size gCap300 =
      llvm_prf_header_size + prf_data_size gCap300 + prf_cnts_size gCap300 +
        prf_names_size gCap300 + prf_get_padding (prf_names_size gCap300) +
        prf_get_value_size gCap300 ∧
    prf_buffer_size gCap300 = 4200 ∧
    (prf_serialize gCap300 true 0).p.size = 4200 ∧
    ((prf_serialize gCap300 true 0).p.buffer.map Buf.pos) = some 4184 := by
  exact ⟨rfl, by decide, by decide, by decide⟩

/-- C7: serialization fails exactly when the buffer allocation fails, with
the out-of-memory error `-ENOMEM = -12`; on failure the private data holds
no buffer (nothing was copied), and the open path frees its private state
and returns the error, exposing nothing; on success it returns 0 and
publishes the serialized private data. -/
theorem prf_C7_single_failure_mode (g : PrfGlobals) (flags : Nat) :
    (∀ ok, (prf_serialize g ok flags).err = 0 ↔ ok = true) ∧
    (prf_serialize g false flags).err = -12 ∧
    (prf_serialize g false flags).p.buffer = none ∧
    prf_open g false true flags = (-12, none) ∧
    prf_open g false false flags = (-12, none) ∧
    prf_open g true false flags = (-12, none) ∧
    prf_open g true true flags = (0, some (prf_serialize g true flags).p) := by
  refine ⟨fun ok => ?_, rfl, rfl, rfl, rfl, ?_, ?_⟩
  · cases ok <;> simp [prf_serialize]
  · simp [prf_open, prf_serialize]
  · simp [prf_open, prf_serialize]

/-- C9: on the allocation-failure path `prf_serialize` has already stored
the computed total size into `p->size` (it is never zero, the header alone
is 80 bytes), while `p->buffer` stays null. -/
theorem prf_C9_size_set_before_alloc (g : PrfGlobals) (flags : Nat) :
    (prf_serialize g false flags).p.size = prf_buffer_size g ∧
    (prf_serialize g false flags).p.buffer = none ∧
    0 < (prf_serialize g false flags).p.size := by
  refine ⟨rfl, rfl, ?_⟩
  show 0 < prf_buffer_size g
  unfold prf_buffer_size llvm_prf_header_size
  omega

/-- C10: `prf_serialize` performs exactly one lock and one unlock, with the
same saved flags, on both the success path and the allocation-failure
path. -/
theorem prf_C10_unlock_once_both_paths (g : PrfGlobals) (ok : Bool) (flags : Nat) :
    (prf_serialize g ok flags).trace =
      [LockEvent.lock flags, LockEvent.unlock flags] := by
  cases ok <;> rfl

/-- C5: for a record with a null `values` pointer and at least one kind with
a nonzero site count, the size pass counts exactly the value-data header
plus, per present kind, the record header and the site count array (no node
data), the write pass advances the cursor by exactly that size (so the
headers and count arrays are emitted), every byte of every count array is
left at the zero fill, and no byte at or past the end of the record is ever
written (no node payloads follow). -/
theorem prf_C5_null_values (p : LlvmPrfData)
    (h1 : p.values = none)
    (h2 : ∃ x ∈ p.num_value_sites, x ≠ 0) :
    (__prf_get_value_size p).1 = sumRecordSizes p.num_value_sites + valueDataSize ∧
    (__prf_get_value_size p).2 = presentKinds p.num_value_sites ∧
    (prf_serialize_value p Buf.init).pos = (__prf_get_value_size p).1 ∧
    (∀ sp ∈ countArraySpans p.num_value_sites valueDataSize, ∀ j < sp.2,
      contents (prf_serialize_value p Buf.init) (sp.1 + j) = 0) ∧
    (∀ i, (prf_serialize_value p Buf.init).pos ≤ i →
      contents (prf_serialize_value p Buf.init) i = 0) := by
  have hs : sizerLoop p.values p.num_value_sites 0 =
      (sumRecordSizes p.num_value_sites, presentKinds p.num_value_sites) := by
    rw [h1]; exact sizerLoop_none _ 0
  have hsum : 0 < sumRecordSizes p.num_value_sites := sumRecordSizes_pos _ h2
  have hpk : 0 < presentKinds p.num_value_sites := presentKinds_pos _ h2
  have hv : __prf_get_value_size p =
      (sumRecordSizes p.num_value_sites + valueDataSize,
       presentKinds p.num_value_sites) := by
    simp [__prf_get_value_size, hs]
    omega
  have hw : prf_serialize_value p Buf.init =
      writerLoop none
        (wrBytes Buf.init
          (u32Bytes (sumRecordSizes p.num_value_sites + valueDataSize) ++
           u32Bytes (presentKinds p.num_value_sites)))
        p.num_value_sites 0 0 := by
    rw [prf_serialize_value, hv]
    rw [if_neg (by omega)]
    rw [h1]
  have hb1pos : (wrBytes Buf.init
      (u32Bytes (sumRecordSizes p.num_value_sites + valueDataSize) ++
       u32Bytes (presentKinds p.num_value_sites))).pos = 8 := by
    rw [wrBytes_pos]
    simp [u32Bytes, Buf.init]
  have hwpos : (prf_serialize_value p Buf.init).pos =
      sumRecordSizes p.num_value_sites + valueDataSize := by
    rw [hw, writerLoop_none_pos, hb1pos]
    unfold valueDataSize
    omega
  refine ⟨by rw [hv], by rw [hv], by rw [hwpos, hv], ?_, ?_⟩
  · intro sp hsp j hj
    have hsp8 : sp ∈ countArraySpans p.num_value_sites
        (wrBytes Buf.init
          (u32Bytes (sumRecordSizes p.num_value_sites + valueDataSize) ++
           u32Bytes (presentKinds p.num_value_sites))).pos := by
      rw [hb1pos]
      exact hsp
    have hge := countArraySpans_start_ge p.num_value_sites valueDataSize sp hsp
    rw [hw, writerLoop_none_counts _ _ _ _ sp hsp8 j hj]
    rw [contents_wrBytes, if_neg (by
      unfold valueDataSize at hge
      unfold prf_get_value_record_header_size at hge
      simp [u32Bytes, Buf.init]
      omega)]
    exact contents_init _
  · intro i hi
    rw [hw] at hi ⊢
    rw [writerLoop_none_high _ _ _ _ _ hi]
    rw [writerLoop_none_pos, hb1pos] at hi
    rw [contents_wrBytes, if_neg (by
      simp [u32Bytes, Buf.init]
      omega)]
    exact contents_init _

/-- Witness for C5 at the concrete record `pNullValues` (one kind with two
sites, null `values` pointer). -/
theorem prf_C5_null_values_witness :
    pNullValues.values = none ∧
    (∃ x ∈ pNullValues.num_value_sites, x ≠ 0) ∧
    ((__prf_get_value_size pNullValues).1 =
        sumRecordSizes pNullValues.num_value_sites + valueDataSize ∧
      (__prf_get_value_size pNullValues).2 =
        presentKinds pNullValues.num_value_sites ∧
      (prf_serialize_value pNullValues Buf.init).pos =
        (__prf_get_value_size pNullValues).1 ∧
      (∀ sp ∈ countArraySpans pNullValues.num_value_sites valueDataSize,
        ∀ j < sp.2,
          contents (prf_serialize_value pNullValues Buf.init) (sp.1 + j) = 0) ∧
      (∀ i, (prf_serialize_value pNullValues Buf.init).pos ≤ i →
        contents (prf_serialize_value pNullValues Buf.init) i = 0)) := by
  refine ⟨rfl, by decide, prf_C5_null_values pNullValues rfl (by decide)⟩

theorem magic_lt : LLVM_PRF_MAGIC < 2 ^ 64 := by norm_num [LLVM_PRF_MAGIC]

theorem version_lor_lt :
    Nat.lor LLVM_PRF_VARIANT_MASK_IR LLVM_PRF_VERSION < 2 ^ 64 := by decide

theorem ipvk_lt : LLVM_PRF_IPVK_LAST < 2 ^ 64 := by norm_num [LLVM_PRF_IPVK_LAST]

/-- C8: the header filler stores, in the fixed ten-field layout, the magic
constant, the version (variant flag OR base version), the three region
element counts from the region accessors, both reserved padding fields as
zero, the counters and names base addresses, and the highest value-kind
tag, and advances the cursor by exactly `sizeof(struct llvm_prf_header)`.
Region counts and addresses read back modulo `2 ^ 64` (they are stored as
`u64`). -/
theorem prf_C8_fill_header (g : PrfGlobals) (b : Buf) :
    (prf_fill_header g b).pos = b.pos + llvm_prf_header_size ∧
    readU64 (prf_fill_header g b) b.pos = LLVM_PRF_MAGIC ∧
    readU64 (prf_fill_header g b) (b.pos + 8) =
      Nat.lor LLVM_PRF_VARIANT_MASK_IR LLVM_PRF_VERSION ∧
    readU64 (prf_fill_header g b) (b.pos + 16) = prf_data_count g % 2 ^ 64 ∧
    readU64 (prf_fill_header g b) (b.pos + 24) = 0 ∧
    readU64 (prf_fill_header g b) (b.pos + 32) = prf_cnts_count g % 2 ^ 64 ∧
    readU64 (prf_fill_header g b) (b.pos + 40) = 0 ∧
    readU64 (prf_fill_header g b) (b.pos + 48) = prf_names_count g % 2 ^ 64 ∧
    readU64 (prf_fill_header g b) (b.pos + 56) = g.cntsStartAddr % 2 ^ 64 ∧
    readU64 (prf_fill_header g b) (b.pos + 64) = g.namesStartAddr % 2 ^ 64 ∧
    readU64 (prf_fill_header g b) (b.pos + 72) = LLVM_PRF_IPVK_LAST := by
  unfold prf_fill_header
  refine ⟨?_, ?_, ?_, ?_, ?_, ?_, ?_, ?_, ?_, ?_, ?_⟩
  · rw [wrBytes_pos]
    simp only [List.length_append, len_u64, llvm_prf_header_size]
  · have h := readU64_wrBytes_seg b []
      (u64Bytes (Nat.lor LLVM_PRF_VARIANT_MASK_IR LLVM_PRF_VERSION) ++
       u64Bytes (prf_data_count g) ++ u64Bytes 0 ++ u64Bytes (prf_cnts_count g) ++
       u64Bytes 0 ++ u64Bytes (prf_names_count g) ++ u64Bytes g.cntsStartAddr ++
       u64Bytes g.namesStartAddr ++ u64Bytes LLVM_PRF_IPVK_LAST) LLVM_PRF_MAGIC
    simp only [List.nil_append, List.length_nil, Nat.add_zero] at h
    rw [Nat.mod_eq_of_lt magic_lt] at h
    exact h
  · have h := readU64_wrBytes_seg b (u64Bytes LLVM_PRF_MAGIC)
      (u64Bytes (prf_data_count g) ++ u64Bytes 0 ++ u64Bytes (prf_cnts_count g) ++
       u64Bytes 0 ++ u64Bytes (prf_names_count g) ++ u64Bytes g.cntsStartAddr ++
       u64Bytes g.namesStartAddr ++ u64Bytes LLVM_PRF_IPVK_LAST)
      (Nat.lor LLVM_PRF_VARIANT_MASK_IR LLVM_PRF_VERSION)
    simp only [len_u64] at h
    rw [Nat.mod_eq_of_lt version_lor_lt] at h
    exact h
  · have h := readU64_wrBytes_seg b
      (u64Bytes LLVM_PRF_MAGIC ++
       u64Bytes (Nat.lor LLVM_PRF_VARIANT_MASK_IR LLVM_PRF_VERSION))
      (u64Bytes 0 ++ u64Bytes (prf_cnts_count g) ++
       u64Bytes 0 ++ u64Bytes (prf_names_count g) ++ u64Bytes g.cntsStartAddr ++
       u64Bytes g.namesStartAddr ++ u64Bytes LLVM_PRF_IPVK_LAST)
      (prf_data_count g)
    simp only [List.append_assoc, List.length_append, len_u64] at h
    rw [show b.pos + 16 = b.pos + (8 + 8) by omega]
    exact h
  · have h := readU64_wrBytes_seg b
      (u64Bytes LLVM_PRF_MAGIC ++
       u64Bytes (Nat.lor LLVM_PRF_VARIANT_MASK_IR LLVM_PRF_VERSION) ++
       u64Bytes (prf_data_count g))
      (u64Bytes (prf_cnts_count g) ++
       u64Bytes 0 ++ u64Bytes (prf_names_count g) ++ u64Bytes g.cntsStartAddr ++
       u64Bytes g.namesStartAddr ++ u64Bytes LLVM_PRF_IPVK_LAST)
      0
    simp only [List.append_assoc, List.length_append, len_u64] at h
    rw [Nat.zero_mod] at h
    rw [show b.pos + 24 = b.pos + (8 + (8 + 8)) by omega]
    exact h
  · have h := readU64_wrBytes_seg b
      (u64Bytes LLVM_PRF_MAGIC ++
       u64Bytes (Nat.lor LLVM_PRF_VARIANT_MASK_IR LLVM_PRF_VERSION) ++
       u64Bytes (prf_data_count g) ++ u64Bytes 0)
      (u64Bytes 0 ++ u64Bytes (prf_names_count g) ++ u64Bytes g.cntsStartAddr ++
       u64Bytes g.namesStartAddr ++ u64Bytes LLVM_PRF_IPVK_LAST)
      (prf_cnts_count g)
    simp only [List.append_assoc, List.length_append, len_u64] at h
    rw [show b.pos + 32 = b.pos + (8 + (8 + (8 + 8))) by omega]
    exact h
  · have h := readU64_wrBytes_seg b
      (u64Bytes LLVM_PRF_MAGIC ++
       u64Bytes (Nat.lor LLVM_PRF_VARIANT_MASK_IR LLVM_PRF_VERSION) ++
       u64Bytes (prf_data_count g) ++ u64Bytes 0 ++ u64Bytes (prf_cnts_count g))
      (u64Bytes (prf_names_count g) ++ u64Bytes g.cntsStartAddr ++
       u64Bytes g.namesStartAddr ++ u64Bytes LLVM_PRF_IPVK_LAST)
      0
    simp only [List.append_assoc, List.length_append, len_u64] at h
    rw [Nat.zero_mod] at h
    rw [show b.pos + 40 = b.pos + (8 + (8 + (8 + (8 + 8)))) by omega]
    exact h
  · have h := readU64_wrBytes_seg b
      (u64Bytes LLVM_PRF_MAGIC ++
       u64Bytes (Nat.lor LLVM_PRF_VARIANT_MASK_IR LLVM_PRF_VERSION) ++
       u64Bytes (prf_data_count g) ++ u64Bytes 0 ++ u64Bytes (prf_cnts_count g) ++
       u64Bytes 0)
      (u64Bytes g.cntsStartAddr ++ u64Bytes g.namesStartAddr ++
       u64Bytes LLVM_PRF_IPVK_LAST)
      (prf_names_count g)
    simp only [List.append_assoc, List.length_append, len_u64] at h
    rw [show b.pos + 48 = b.pos + (8 + (8 + (8 + (8 + (8 + 8))))) by omega]
    exact h
  · have h := readU64_wrBytes_seg b
      (u64Bytes LLVM_PRF_MAGIC ++
       u64Bytes (Nat.lor LLVM_PRF_VARIANT_MASK_IR LLVM_PRF_VERSION) ++
       u64Bytes (prf_data_count g) ++ u64Bytes 0 ++ u64Bytes (prf_cnts_count g) ++
       u64Bytes 0 ++ u64Bytes (prf_names_count g))
      (u64Bytes g.namesStartAddr ++ u64Bytes LLVM_PRF_IPVK_LAST)
      g.cntsStartAddr
    simp only [List.append_assoc, List.length_append, len_u64] at h
    rw [show b.pos + 56 = b.pos + (8 + (8 + (8 + (8 + (8 + (8 + 8)))))) by omega]
    exact h
  · have h := readU64_wrBytes_seg b
      (u64Bytes LLVM_PRF_MAGIC ++
       u64Bytes (Nat.lor LLVM_PRF_VARIANT_MASK_IR LLVM_PRF_VERSION) ++
       u64Bytes (prf_data_count g) ++ u64Bytes 0 ++ u64Bytes (prf_cnts_count g) ++
       u64Bytes 0 ++ u64Bytes (prf_names_count g) ++ u64Bytes g.cntsStartAddr)
      (u64Bytes LLVM_PRF_IPVK_LAST)
      g.namesStartAddr
    simp only [List.append_assoc, List.length_append, len_u64] at h
    rw [show b.pos + 64 = b.pos + (8 + (8 + (8 + (8 + (8 + (8 + (8 + 8))))))) by omega]
    exact h
  · have h := readU64_wrBytes_seg b
      (u64Bytes LLVM_PRF_MAGIC ++
       u64Bytes (Nat.lor LLVM_PRF_VARIANT_MASK_IR LLVM_PRF_VERSION) ++
       u64Bytes (prf_data_count g) ++ u64Bytes 0 ++ u64Bytes (prf_cnts_count g) ++
       u64Bytes 0 ++ u64Bytes (prf_names_count g) ++ u64Bytes g.cntsStartAddr ++
       u64Bytes g.namesStartAddr)
      ([] : List Nat)
      LLVM_PRF_IPVK_LAST
    simp only [List.append_assoc, List.length_append, len_u64, List.append_nil] at h
    rw [Nat.mod_eq_of_lt ipvk_lt] at h
    rw [show b.pos + 72 = b.pos + (8 + (8 + (8 + (8 + (8 + (8 + (8 + (8 + 8)))))))) by omega]
    exact h
